import Mathlib

/-!
Verification of the ethercast-backend queue drainer
(`src/util/queue-drainer.ts`) and the token authorizer.

The queue drainer is modelled as a fuel-indexed interpreter over an
environment supplying the transport responses (poll results, batched
delete outcomes), the message handler, and the injected
remaining-time source.  Each run produces a trace of the transport
calls made, together with the drain session counters, so that the
spec's ordering and accounting properties can be stated as facts
about traces.
-/

namespace QueueDrainer

/-- An SQS message as used by the drainer: queue-assigned identity,
removal token (receipt handle) and opaque body, all optional exactly
as in the transport's message type. -/
structure Message where
  messageId : Option String
  receiptHandle : Option String
  body : Option String
deriving Repr, DecidableEq

/-- One entry of a batched delete request, built in `deleteMessages`
as `{ Id: MessageId, ReceiptHandle }`.  Both fields are optional:
the source copies them from the message without checking. -/
structure DeleteEntry where
  id : Option String
  receiptHandle : Option String
deriving Repr, DecidableEq

/-- Observable transport/handler calls made during a drain run. -/
inductive Event where
  | pollEv (batch : List Message)
  | handleEv (m : Message)
  | deleteBatchEv (entries : List DeleteEntry)
deriving Repr, DecidableEq

/-- `poll`: returns `response.Messages || []` — an empty list, not an
error, when the transport reports no messages. -/
def poll (responseMessages : Option (List Message)) : List Message :=
  responseMessages.getD []

/-- The single-message `deleteMessage`: throws `'missing receipt handle'`
when the message has no removal token; otherwise calls the transport
and catches any transport failure, returning it as a logged value
(`Except.ok (some e)`) instead of re-raising. -/
def deleteMessage (transport : String → Except String Unit) (m : Message) :
    Except String (Option String) :=
  match m.receiptHandle with
  | none => Except.error "missing receipt handle"
  | some rh =>
    match transport rh with
    | Except.ok _ => Except.ok none
    | Except.error e => Except.ok (some e)

/-- The entry list built inside `deleteMessages`:
`messages.map(({ MessageId, ReceiptHandle }) => ({ Id: MessageId, ReceiptHandle }))`.
No receipt-handle check is performed. -/
def mkDeleteEntries (messages : List Message) : List DeleteEntry :=
  messages.map fun m => { id := m.messageId, receiptHandle := m.receiptHandle }

/-- `deleteMessages`: issues exactly one `deleteMessageBatch` call whose
entries are built from the whole message list.  The result is the
emitted event together with the transport outcome; there is no
try/catch around the transport call, so an error outcome propagates
to the caller. -/
def deleteMessages (deleteBatch : List DeleteEntry → Except String Unit)
    (messages : List Message) : List Event × Option String :=
  let entries := mkDeleteEntries messages
  ([Event.deleteBatchEv entries],
    match deleteBatch entries with
    | Except.ok _ => none
    | Except.error e => some e)

/-- `processMessages`: awaits the handler on each message in order;
a handler failure aborts the remainder of the list.  Returns the
handler-invocation events that actually happened together with the
propagated error, if any. -/
def processMessages (handler : Message → Except String Unit) :
    List Message → List Event × Option String
  | [] => ([], none)
  | m :: rest =>
    match handler m with
    | Except.error e => ([Event.handleEv m], some e)
    | Except.ok _ =>
      let r := processMessages handler rest
      (Event.handleEv m :: r.1, r.2)

/-- The drain session counters and the call trace at loop exit. -/
structure RunResult where
  trace : List Event
  processedMessageCount : Nat
  pollCount : Nat
deriving Repr, DecidableEq

/-- Outcome of running `start`: normal exit of the while loop,
an exception propagating out of `start`, or fuel exhaustion of the
model (the real loop is gated only by the time source). -/
inductive Outcome where
  | done (r : RunResult)
  | raised (err : String) (r : RunResult)
  | outOfFuel (r : RunResult)
deriving Repr, DecidableEq

/-- The drainer's environment: the i-th poll's transport response
(`Messages` field), the handler, the batched-delete transport, and the
injected `getRemainingTime`, sampled once per while-loop check. -/
structure Env where
  pollResponses : Nat → Option (List Message)
  handler : Message → Except String Unit
  deleteBatch : List DeleteEntry → Except String Unit
  remaining : Nat → Int

/-- The body of `start`: while `getRemainingTime() > 3000`, poll,
process, delete, then bump the counters.  The time source is sampled
immediately before each iteration; the sample index equals the current
`pollCount`.  A handler or batched-delete failure is raised with the
counters unchanged (the increments in the source happen after the
awaits). -/
def startLoop (env : Env) : Nat → Nat → Nat → List Event → Outcome
  | 0, pollCount, processed, tr => Outcome.outOfFuel ⟨tr, processed, pollCount⟩
  | fuel + 1, pollCount, processed, tr =>
    if env.remaining pollCount > 3000 then
      let batch := poll (env.pollResponses pollCount)
      let pr := processMessages env.handler batch
      match pr.2 with
      | some e => Outcome.raised e ⟨tr ++ [Event.pollEv batch] ++ pr.1, processed, pollCount⟩
      | none =>
        let dr := deleteMessages env.deleteBatch batch
        match dr.2 with
        | some e =>
          Outcome.raised e ⟨tr ++ [Event.pollEv batch] ++ pr.1 ++ dr.1, processed, pollCount⟩
        | none =>
          startLoop env fuel (pollCount + 1) (processed + batch.length)
            (tr ++ [Event.pollEv batch] ++ pr.1 ++ dr.1)
    else
      Outcome.done ⟨tr, processed, pollCount⟩

/-- `start`: fresh drain session, zero counters, empty trace. -/
def start (env : Env) (fuel : Nat) : Outcome :=
  startLoop env fuel 0 0 []

/-- Number of poll calls recorded in a trace. -/
def countPolls (tr : List Event) : Nat :=
  (tr.filter fun e => match e with | Event.pollEv _ => true | _ => false).length

/-- Number of batched delete requests recorded in a trace. -/
def countDeletes (tr : List Event) : Nat :=
  (tr.filter fun e => match e with | Event.deleteBatchEv _ => true | _ => false).length

/-- Total size of the polled batches recorded in a trace. -/
def polledSizes (tr : List Event) : Nat :=
  (tr.map fun e => match e with | Event.pollEv b => b.length | _ => 0).sum

end QueueDrainer

namespace Authorizer

/-- A successful authentication outcome: the user and the scope string
passed to `authorized(user, scope)`. -/
structure AuthResult where
  user : String
  scope : String
deriving Repr, DecidableEq

/-- One IAM policy statement. -/
structure PolicyStatement where
  action : String
  effect : String
  resource : String
deriving Repr, DecidableEq

/-- The policy document of the returned policy. -/
structure PolicyDocument where
  version : String
  statement : List PolicyStatement
deriving Repr, DecidableEq

/-- The value passed to the authorizer callback: optional principal and
context (absent exactly when the spread of `null` drops them), plus the
policy document. -/
structure Policy where
  principalId : Option String
  context : Option (String × String)
  policyDocument : PolicyDocument
deriving Repr, DecidableEq

/-- `generatePolicy`: spreads `{principalId, context}` only when a
result is present, and always attaches the same Allow-on-* document. -/
def generatePolicy (result : Option AuthResult) : Policy :=
  { principalId := result.map fun r => r.user,
    context := result.map fun r => (r.user, r.scope),
    policyDocument :=
      { version := "2012-10-17",
        statement :=
          [{ action := "execute-api:Invoke", effect := "Allow", resource := "*" }] } }

/-- A stored API key record as returned by the key-value lookup. -/
structure ApiKey where
  user : String
  secret : String
  scopes : List String
deriving Repr, DecidableEq

/-- The authorizer's external world: the request headers (in insertion
order), whether the JWKS fetch / PEM conversion pipeline succeeds,
the JWT verification outcome for a token (yielding `(sub, scope)`),
and the API key lookup. -/
structure AuthEnv where
  headers : List (String × String)
  jwksOk : Bool
  verify : String → Except String (String × String)
  getKey : String → Option ApiKey

/-- The lower-cased header map built by the reduce: later entries with
the same lower-cased key overwrite earlier ones. -/
def lowerHeaders (hs : List (String × String)) (key : String) : Option String :=
  hs.foldl (fun acc p => if p.1.toLower = key then some p.2 else acc) none

/-- `authorize`: dispatches on the `authorization` header.  Every path
calls the callback exactly once with a `generatePolicy` value; this
model returns that value. -/
def authorize (env : AuthEnv) : Policy :=
  match lowerHeaders env.headers "authorization" with
  | none => generatePolicy none
  | some auth =>
    if auth.length = 0 then generatePolicy none
    else
      let parts := auth.splitOn " "
      if parts.length = 2 then
        let ty := parts.getD 0 ""
        let token := parts.getD 1 ""
        if ty.toLower = "bearer" then
          if env.jwksOk then
            match env.verify token with
            | Except.error _ => generatePolicy none
            | Except.ok (sub, scope) => generatePolicy (some ⟨sub, scope⟩)
          else generatePolicy none
        else if ty.toLower = "api-key" then
          let kparts := token.splitOn ":"
          let keyId := kparts.getD 0 ""
          let secret := kparts.get? 1
          match env.getKey keyId with
          | none => generatePolicy none
          | some k =>
            if secret = some k.secret then
              generatePolicy (some ⟨k.user, " ".intercalate k.scopes⟩)
            else generatePolicy none
        else generatePolicy none
      else generatePolicy none

end Authorizer

namespace QueueDrainer

theorem processMessages_ok (handler : Message → Except String Unit) (l : List Message)
    (h : ∀ m ∈ l, handler m = Except.ok ()) :
    processMessages handler l = (l.map Event.handleEv, none) := by
  induction l with
  | nil => rfl
  | cons m rest ih =>
    have hm : handler m = Except.ok () := h m (by simp)
    simp [processMessages, hm, ih fun m' hm' => h m' (by simp [hm'])]

theorem processMessages_fail (handler : Message → Except String Unit)
    (l : List Message) (k : Nat) (e : String) (hk : k < l.length)
    (hok : ∀ m ∈ l.take k, handler m = Except.ok ())
    (herr : handler (l.get ⟨k, hk⟩) = Except.error e) :
    processMessages handler l = ((l.take (k + 1)).map Event.handleEv, some e) := by
  induction l generalizing k with
  | nil => cases hk
  | cons m rest ih =>
    cases k with
    | zero =>
      simp only [List.get] at herr
      simp [processMessages, herr]
    | succ k =>
      have hm : handler m = Except.ok () := hok m (by simp)
      have hrec := ih k (Nat.lt_of_succ_lt_succ hk)
        (fun m' hm' => hok m' (by simp [hm'])) (by simpa using herr)
      simp [processMessages, hm, hrec]

theorem startLoop_step (env : Env) (fuel pc pm : Nat) (tr : List Event)
    (hg : env.remaining pc > 3000)
    (hok : ∀ m ∈ poll (env.pollResponses pc), env.handler m = Except.ok ())
    (hd : env.deleteBatch (mkDeleteEntries (poll (env.pollResponses pc))) = Except.ok ()) :
    startLoop env (fuel + 1) pc pm tr =
      startLoop env fuel (pc + 1) (pm + (poll (env.pollResponses pc)).length)
        (tr ++ [Event.pollEv (poll (env.pollResponses pc))]
            ++ (poll (env.pollResponses pc)).map Event.handleEv
            ++ [Event.deleteBatchEv (mkDeleteEntries (poll (env.pollResponses pc)))]) := by
  simp [startLoop, hg, processMessages_ok _ _ hok, deleteMessages, hd]

theorem startLoop_deleteFail (env : Env) (fuel pc pm : Nat) (tr : List Event) (e : String)
    (hg : env.remaining pc > 3000)
    (hok : ∀ m ∈ poll (env.pollResponses pc), env.handler m = Except.ok ())
    (hd : env.deleteBatch (mkDeleteEntries (poll (env.pollResponses pc))) = Except.error e) :
    startLoop env (fuel + 1) pc pm tr =
      Outcome.raised e
        ⟨tr ++ [Event.pollEv (poll (env.pollResponses pc))]
            ++ (poll (env.pollResponses pc)).map Event.handleEv
            ++ [Event.deleteBatchEv (mkDeleteEntries (poll (env.pollResponses pc)))],
         pm, pc⟩ := by
  simp [startLoop, hg, processMessages_ok _ _ hok, deleteMessages, hd]

theorem startLoop_handlerFail (env : Env) (fuel pc pm : Nat) (tr : List Event)
    (k : Nat) (e : String) (hg : env.remaining pc > 3000)
    (hk : k < (poll (env.pollResponses pc)).length)
    (hok : ∀ m ∈ (poll (env.pollResponses pc)).take k, env.handler m = Except.ok ())
    (herr : env.handler ((poll (env.pollResponses pc)).get ⟨k, hk⟩) = Except.error e) :
    startLoop env (fuel + 1) pc pm tr =
      Outcome.raised e
        ⟨tr ++ [Event.pollEv (poll (env.pollResponses pc))]
            ++ ((poll (env.pollResponses pc)).take (k + 1)).map Event.handleEv,
         pm, pc⟩ := by
  simp [startLoop, hg, processMessages_fail _ _ k e hk hok herr]

theorem countPolls_append (a b : List Event) :
    countPolls (a ++ b) = countPolls a + countPolls b := by
  simp [countPolls, List.filter_append]

theorem polledSizes_append (a b : List Event) :
    polledSizes (a ++ b) = polledSizes a + polledSizes b := by
  simp [polledSizes]

theorem countDeletes_append (a b : List Event) :
    countDeletes (a ++ b) = countDeletes a + countDeletes b := by
  simp [countDeletes, List.filter_append]

theorem processMessages_no_polls (handler : Message → Except String Unit)
    (l : List Message) :
    countPolls (processMessages handler l).1 = 0 ∧
      polledSizes (processMessages handler l).1 = 0 := by
  induction l with
  | nil => simp [processMessages, countPolls, polledSizes]
  | cons m rest ih =>
    cases hm : handler m with
    | error e => simp [processMessages, hm, countPolls, polledSizes]
    | ok u =>
      rcases ih with ⟨ih1, ih2⟩
      simp [processMessages, hm, countPolls, polledSizes] at ih1 ih2 ⊢
      exact ⟨ih1, ih2⟩

theorem deleteMessages_fst (db : List DeleteEntry → Except String Unit)
    (msgs : List Message) :
    (deleteMessages db msgs).1 = [Event.deleteBatchEv (mkDeleteEntries msgs)] := rfl

theorem countPolls_pollEv (b : List Message) : countPolls [Event.pollEv b] = 1 := rfl

theorem countPolls_deleteEv (es : List DeleteEntry) :
    countPolls [Event.deleteBatchEv es] = 0 := rfl

theorem polledSizes_pollEv (b : List Message) :
    polledSizes [Event.pollEv b] = b.length := by simp [polledSizes]

theorem polledSizes_deleteEv (es : List DeleteEntry) :
    polledSizes [Event.deleteBatchEv es] = 0 := rfl

theorem startLoop_done_inv (env : Env) (fuel : Nat) :
    ∀ pc pm : Nat, ∀ tr : List Event, ∀ r : RunResult,
      pc = countPolls tr → pm = polledSizes tr →
      startLoop env fuel pc pm tr = Outcome.done r →
      r.pollCount = countPolls r.trace ∧
        r.processedMessageCount = polledSizes r.trace := by
  induction fuel with
  | zero =>
    intro pc pm tr r _ _ h
    simp [startLoop] at h
  | succ fuel ih =>
    intro pc pm tr r hpc hpm h
    by_cases hg : env.remaining pc > 3000
    · rw [startLoop] at h
      rw [if_pos hg] at h
      simp only [] at h
      split at h
      · exact absurd h (by simp)
      · split at h
        · exact absurd h (by simp)
        · refine ih (pc + 1) (pm + (poll (env.pollResponses pc)).length) _ r ?_ ?_ h
          · have hnp := (processMessages_no_polls env.handler (poll (env.pollResponses pc))).1
            rw [countPolls_append, countPolls_append, countPolls_append,
              deleteMessages_fst, hnp, countPolls_pollEv, countPolls_deleteEv, ← hpc]
          · have hns := (processMessages_no_polls env.handler (poll (env.pollResponses pc))).2
            rw [polledSizes_append, polledSizes_append, polledSizes_append,
              deleteMessages_fst, hns, polledSizes_pollEv, polledSizes_deleteEv, ← hpm]
            omega
    · rw [startLoop] at h
      rw [if_neg hg] at h
      cases h
      exact ⟨hpc, hpm⟩

theorem countDeletes_handles (l : List Message) :
    countDeletes (l.map Event.handleEv) = 0 := by
  induction l with
  | nil => rfl
  | cons m rest ih => simp [countDeletes]

theorem startLoop_empty_no_raise (env : Env)
    (hpoll : ∀ i, env.pollResponses i = none)
    (hdel : env.deleteBatch [] = Except.ok ()) (fuel : Nat) :
    ∀ pc pm : Nat, ∀ tr : List Event, ∀ e : String, ∀ r : RunResult,
      startLoop env fuel pc pm tr ≠ Outcome.raised e r := by
  induction fuel with
  | zero =>
    intro pc pm tr e r h
    simp [startLoop] at h
  | succ fuel ih =>
    intro pc pm tr e r h
    by_cases hg : env.remaining pc > 3000
    · rw [startLoop, if_pos hg] at h
      rw [hpoll pc] at h
      simp only [poll, Option.getD_none, processMessages, deleteMessages,
        mkDeleteEntries, List.map_nil, hdel] at h
      exact ih _ _ _ _ _ h
    · rw [startLoop, if_neg hg] at h
      simp at h

/-! Concrete fixtures used by counterexamples and witnesses. -/

def msgA : Message :=
  { messageId := some "id-a", receiptHandle := some "rh-a", body := some "body-a" }

def msgB : Message :=
  { messageId := some "id-b", receiptHandle := some "rh-b", body := some "body-b" }

def msgC : Message :=
  { messageId := some "id-c", receiptHandle := none, body := some "body-c" }

def msgD : Message :=
  { messageId := some "id-d", receiptHandle := some "rh-d", body := some "body-d" }

def okHandler : Message → Except String Unit := fun _ => Except.ok ()

def okDelete : List DeleteEntry → Except String Unit := fun _ => Except.ok ()

def failingDeleteEnv : Env :=
  { pollResponses := fun _ => some [msgA, msgB, msgD],
    handler := okHandler,
    deleteBatch := fun _ => Except.error "delete-batch-failed",
    remaining := fun _ => 10000 }

def failingHandlerEnv : Env :=
  { pollResponses := fun _ => some [msgA, msgB, msgD],
    handler := fun m =>
      if m.messageId = some "id-b" then Except.error "handler-failed" else Except.ok (),
    deleteBatch := okDelete,
    remaining := fun _ => 10000 }

def lowTimeEnv : Env :=
  { pollResponses := fun _ => some [msgA],
    handler := okHandler,
    deleteBatch := okDelete,
    remaining := fun _ => 2000 }

def steadyEnv : Env :=
  { pollResponses := fun _ => some [msgA, msgB],
    handler := okHandler,
    deleteBatch := okDelete,
    remaining := fun _ => 10000 }

def twoCycleEnv : Env :=
  { pollResponses := fun _ => some [msgA, msgB],
    handler := okHandler,
    deleteBatch := okDelete,
    remaining := fun i => if i = 0 then 5000 else 2000 }

def emptyQueueEnv : Env :=
  { pollResponses := fun _ => none,
    handler := okHandler,
    deleteBatch := okDelete,
    remaining := fun i => if i = 0 then 5000 else 0 }

def scenarioEnv : Env :=
  { pollResponses := fun i =>
      if i = 0 then some [msgA] else if i = 1 then some [msgB] else some [],
    handler := okHandler,
    deleteBatch := okDelete,
    remaining := fun i => if i = 0 then 10000 else if i = 1 then 6000 else 2000 }

def scenarioTrace : List Event :=
  [Event.pollEv [msgA], Event.handleEv msgA,
   Event.deleteBatchEv [{ id := some "id-a", receiptHandle := some "rh-a" }],
   Event.pollEv [msgB], Event.handleEv msgB,
   Event.deleteBatchEv [{ id := some "id-b", receiptHandle := some "rh-b" }]]

def twoCycleTrace : List Event :=
  [Event.pollEv [msgA, msgB], Event.handleEv msgA, Event.handleEv msgB,
   Event.deleteBatchEv
     [{ id := some "id-a", receiptHandle := some "rh-a" },
      { id := some "id-b", receiptHandle := some "rh-b" }]]

/-- Claim C1, counterexample: with a batch of 3 messages whose handlers
all succeed and a batched delete that fails, `start` raises the delete
error after exactly one poll — the failure is neither logged-and-swallowed
nor followed by another poll cycle, refuting the claim that a batched
delete failure is swallowed and the loop continues. -/
theorem C1_counterexample :
    start failingDeleteEnv 5 =
      Outcome.raised "delete-batch-failed"
        ⟨[Event.pollEv [msgA, msgB, msgD], Event.handleEv msgA, Event.handleEv msgB,
          Event.handleEv msgD,
          Event.deleteBatchEv
            [{ id := some "id-a", receiptHandle := some "rh-a" },
             { id := some "id-b", receiptHandle := some "rh-b" },
             { id := some "id-d", receiptHandle := some "rh-d" }]],
         0, 0⟩ := rfl

/-- Claim C1, amended: a batched delete failure is not caught by
`deleteMessages` or by `start`: after the single batched delete request
is issued, the transport error propagates out of the drain loop, which
stops with its counters unchanged instead of proceeding to the next poll
cycle. -/
theorem C1_amended_delete_failure_propagates (env : Env) (fuel pc pm : Nat)
    (tr : List Event) (e : String) (hg : env.remaining pc > 3000)
    (hok : ∀ m ∈ poll (env.pollResponses pc), env.handler m = Except.ok ())
    (hd : env.deleteBatch (mkDeleteEntries (poll (env.pollResponses pc))) =
      Except.error e) :
    startLoop env (fuel + 1) pc pm tr =
      Outcome.raised e
        ⟨tr ++ [Event.pollEv (poll (env.pollResponses pc))]
            ++ (poll (env.pollResponses pc)).map Event.handleEv
            ++ [Event.deleteBatchEv (mkDeleteEntries (poll (env.pollResponses pc)))],
         pm, pc⟩ :=
  startLoop_deleteFail env fuel pc pm tr e hg hok hd

/-- Witness for the amended C1 theorem at a concrete environment. -/
theorem C1_amended_witness :
    startLoop failingDeleteEnv 5 0 0 [] =
      Outcome.raised "delete-batch-failed"
        ⟨[] ++ [Event.pollEv (poll (failingDeleteEnv.pollResponses 0))]
            ++ (poll (failingDeleteEnv.pollResponses 0)).map Event.handleEv
            ++ [Event.deleteBatchEv
                  (mkDeleteEntries (poll (failingDeleteEnv.pollResponses 0)))],
         0, 0⟩ :=
  C1_amended_delete_failure_propagates failingDeleteEnv 4 0 0 [] "delete-batch-failed"
    (by decide) (fun _ _ => rfl) rfl

/-- Claim C2: if the handler fails on message k of a polled batch, the
error is raised out of the loop; the trace extends only by the poll event
and the handler events for messages 0..k (so the rest of the batch is
never handled), and no batched delete request is added for that batch. -/
theorem C2_handler_failure_aborts_batch (env : Env) (fuel pc pm : Nat)
    (tr : List Event) (k : Nat) (e : String) (hg : env.remaining pc > 3000)
    (hk : k < (poll (env.pollResponses pc)).length)
    (hok : ∀ m ∈ (poll (env.pollResponses pc)).take k, env.handler m = Except.ok ())
    (herr : env.handler ((poll (env.pollResponses pc)).get ⟨k, hk⟩) = Except.error e) :
    startLoop env (fuel + 1) pc pm tr =
      Outcome.raised e
        ⟨tr ++ [Event.pollEv (poll (env.pollResponses pc))]
            ++ ((poll (env.pollResponses pc)).take (k + 1)).map Event.handleEv,
         pm, pc⟩ ∧
      countDeletes (tr ++ [Event.pollEv (poll (env.pollResponses pc))]
          ++ ((poll (env.pollResponses pc)).take (k + 1)).map Event.handleEv) =
        countDeletes tr := by
  refine ⟨startLoop_handlerFail env fuel pc pm tr k e hg hk hok herr, ?_⟩
  rw [countDeletes_append, countDeletes_append, countDeletes_handles]
  simp [countDeletes]

/-- Witness for C2: handler fails on the second of three messages. -/
theorem C2_witness :
    startLoop failingHandlerEnv 5 0 0 [] =
      Outcome.raised "handler-failed"
        ⟨[] ++ [Event.pollEv (poll (failingHandlerEnv.pollResponses 0))]
            ++ ((poll (failingHandlerEnv.pollResponses 0)).take (1 + 1)).map Event.handleEv,
         0, 0⟩ ∧
      countDeletes ([] ++ [Event.pollEv (poll (failingHandlerEnv.pollResponses 0))]
          ++ ((poll (failingHandlerEnv.pollResponses 0)).take (1 + 1)).map Event.handleEv) =
        countDeletes [] :=
  C2_handler_failure_aborts_batch failingHandlerEnv 4 0 0 [] 1 "handler-failed"
    (by decide) (by decide)
    (by
      intro m hm
      simp only [show (poll (failingHandlerEnv.pollResponses 0)).take 1 = [msgA] from rfl,
        List.mem_singleton] at hm
      subst hm
      rfl)
    rfl

/-- Claim C3: the loop starts a new iteration only when the time sample
taken immediately before it exceeds the 3000 ms margin: a sample ≤ 3000
ends the loop at once with the session state untouched, and a first
sample ≤ 3000 yields the initial result with an empty trace (zero poll
calls) and zero counters. -/
theorem C3_budget_gate (env : Env) (fuel pc pm : Nat) (tr : List Event)
    (hle : env.remaining pc ≤ 3000) :
    startLoop env (fuel + 1) pc pm tr = Outcome.done ⟨tr, pm, pc⟩ ∧
      (env.remaining 0 ≤ 3000 → start env (fuel + 1) = Outcome.done ⟨[], 0, 0⟩) := by
  constructor
  · rw [startLoop, if_neg (not_lt.mpr hle)]
  · intro h0
    rw [start, startLoop, if_neg (not_lt.mpr h0)]

/-- Witness for C3 at a concrete environment with 2000 ms remaining. -/
theorem C3_witness :
    startLoop lowTimeEnv 1 0 0 [] = Outcome.done ⟨[], 0, 0⟩ ∧
      (lowTimeEnv.remaining 0 ≤ 3000 → start lowTimeEnv 1 = Outcome.done ⟨[], 0, 0⟩) :=
  C3_budget_gate lowTimeEnv 0 0 0 [] (by decide)

/-- Claim C5: processing a batch whose handler succeeds everywhere
invokes the handler once per message, in batch order (the handler-event
trace is exactly the batch mapped in order), with no error. -/
theorem C5_handler_per_message (handler : Message → Except String Unit)
    (batch : List Message) (hok : ∀ m ∈ batch, handler m = Except.ok ()) :
    processMessages handler batch = (batch.map Event.handleEv, none) ∧
      (batch.map Event.handleEv).length = batch.length :=
  ⟨processMessages_ok handler batch hok, by simp⟩

/-- Witness for C5 on a two-message batch. -/
theorem C5_witness :
    processMessages okHandler [msgA, msgB] = ([msgA, msgB].map Event.handleEv, none) ∧
      ([msgA, msgB].map Event.handleEv).length = [msgA, msgB].length :=
  C5_handler_per_message okHandler [msgA, msgB] (fun _ _ => rfl)

/-- Claim C6: a successfully processed batch leads to exactly one batched
delete request whose entries are the batch's messages mapped, in order,
to their identity and removal token; the loop step appends exactly that
one request for the current batch, so delete requests and polled batches
correspond cycle by cycle. -/
theorem C6_single_delete_request (env : Env) (fuel pc pm : Nat) (tr : List Event)
    (hg : env.remaining pc > 3000)
    (hok : ∀ m ∈ poll (env.pollResponses pc), env.handler m = Except.ok ())
    (hd : env.deleteBatch (mkDeleteEntries (poll (env.pollResponses pc))) =
      Except.ok ()) :
    deleteMessages env.deleteBatch (poll (env.pollResponses pc)) =
      ([Event.deleteBatchEv ((poll (env.pollResponses pc)).map
          fun m => { id := m.messageId, receiptHandle := m.receiptHandle })], none) ∧
      startLoop env (fuel + 1) pc pm tr =
        startLoop env fuel (pc + 1) (pm + (poll (env.pollResponses pc)).length)
          (tr ++ [Event.pollEv (poll (env.pollResponses pc))]
              ++ (poll (env.pollResponses pc)).map Event.handleEv
              ++ [Event.deleteBatchEv (mkDeleteEntries (poll (env.pollResponses pc)))]) := by
  refine ⟨?_, startLoop_step env fuel pc pm tr hg hok hd⟩
  simp only [deleteMessages]
  rw [hd]
  rfl

/-- Witness for C6 at a concrete environment. -/
theorem C6_witness :
    deleteMessages steadyEnv.deleteBatch (poll (steadyEnv.pollResponses 0)) =
      ([Event.deleteBatchEv ((poll (steadyEnv.pollResponses 0)).map
          fun m => { id := m.messageId, receiptHandle := m.receiptHandle })], none) ∧
      startLoop steadyEnv 3 0 0 [] =
        startLoop steadyEnv 2 1 (0 + (poll (steadyEnv.pollResponses 0)).length)
          ([] ++ [Event.pollEv (poll (steadyEnv.pollResponses 0))]
              ++ (poll (steadyEnv.pollResponses 0)).map Event.handleEv
              ++ [Event.deleteBatchEv (mkDeleteEntries (poll (steadyEnv.pollResponses 0)))]) :=
  C6_single_delete_request steadyEnv 2 0 0 [] (by decide) (fun _ _ => rfl) rfl

/-- Claim C7: with margin 3000 and remaining-time samples
[10000, 6000, 2000], one per iteration start, the loop runs exactly two
poll cycles and the third budget check terminates it. -/
theorem C7_two_poll_cycles :
    start scenarioEnv 10 = Outcome.done ⟨scenarioTrace, 2, 2⟩ ∧
      countPolls scenarioTrace = 2 :=
  ⟨rfl, rfl⟩

/-- Claim C8: at normal loop exit the session counters match the trace:
the poll counter equals the number of poll events (one per completed
iteration, empty batches included) and the processed counter equals the
sum of the sizes of all polled batches. -/
theorem C8_session_counters (env : Env) (fuel : Nat) (r : RunResult)
    (h : start env fuel = Outcome.done r) :
    r.pollCount = countPolls r.trace ∧
      r.processedMessageCount = polledSizes r.trace :=
  startLoop_done_inv env fuel 0 0 [] r rfl rfl h

/-- Witness for C8 on a completed two-sample run. -/
theorem C8_witness :
    (RunResult.mk twoCycleTrace 2 1).pollCount =
        countPolls (RunResult.mk twoCycleTrace 2 1).trace ∧
      (RunResult.mk twoCycleTrace 2 1).processedMessageCount =
        polledSizes (RunResult.mk twoCycleTrace 2 1).trace :=
  C8_session_counters twoCycleEnv 2 ⟨twoCycleTrace, 2, 1⟩ rfl

/-- Claim C9: a poll whose transport response carries no messages yields
the empty batch (not an error), and a drain run over an always-empty
queue never raises: the no-messages case is a normal cycle. -/
theorem C9_empty_batch_normal (env : Env)
    (hpoll : ∀ i, env.pollResponses i = none)
    (hdel : env.deleteBatch [] = Except.ok ()) (fuel : Nat) :
    poll none = ([] : List Message) ∧
      ∀ e r, start env fuel ≠ Outcome.raised e r :=
  ⟨rfl, fun e r => startLoop_empty_no_raise env hpoll hdel fuel 0 0 [] e r⟩

/-- Witness for C9 on a concrete empty-queue environment. -/
theorem C9_witness :
    poll none = ([] : List Message) ∧
      ∀ e r, start emptyQueueEnv 3 ≠ Outcome.raised e r :=
  C9_empty_batch_normal emptyQueueEnv (fun _ => rfl) rfl 3

/-- Claim C4, counterexample: the batched `deleteMessages` sends a
message with no receipt handle to the transport anyway — the single
batched request contains an entry whose removal token is absent, and no
error is raised, refuting the claim that such a message fails fast and
is never sent. -/
theorem C4_counterexample :
    deleteMessages okDelete [msgC] =
      ([Event.deleteBatchEv [{ id := some "id-c", receiptHandle := none }]], none) :=
  rfl

/-- Claim C4, amended: only the single-message `deleteMessage` treats a
missing receipt handle as a fatal precondition violation, throwing
before any transport call; the batched `deleteMessages` used by the
drain loop copies each message's identity and (possibly absent) receipt
handle into the request unchecked and sends it. -/
theorem C4_amended_only_single_delete_checks
    (transport : String → Except String Unit)
    (db : List DeleteEntry → Except String Unit)
    (m : Message) (msgs : List Message) (hm : m.receiptHandle = none) :
    deleteMessage transport m = Except.error "missing receipt handle" ∧
      (deleteMessages db msgs).1 = [Event.deleteBatchEv (mkDeleteEntries msgs)] := by
  constructor
  · simp [deleteMessage, hm]
  · rfl

/-- Witness for the amended C4 theorem on a message without a receipt
handle. -/
theorem C4_amended_witness :
    deleteMessage (fun _ => Except.ok ()) msgC = Except.error "missing receipt handle" ∧
      (deleteMessages okDelete [msgC]).1 = [Event.deleteBatchEv (mkDeleteEntries [msgC])] :=
  C4_amended_only_single_delete_checks (fun _ => Except.ok ()) okDelete msgC [msgC] rfl

end QueueDrainer

namespace Authorizer

/-- Claim C10: every run of `authorize` returns `generatePolicy` applied
to some optional result, so the returned policy document always has the
single statement allowing `execute-api:Invoke` on resource `*` — for
unauthorized outcomes just as for authorized ones; the outcomes differ
only in the `principalId` and user/scope `context` fields that
`generatePolicy` populates from the optional result. -/
theorem C10_policy_always_allows (env : AuthEnv) :
    (∃ r : Option AuthResult, authorize env = generatePolicy r) ∧
      (authorize env).policyDocument =
        { version := "2012-10-17",
          statement :=
            [{ action := "execute-api:Invoke", effect := "Allow", resource := "*" }] } ∧
      (generatePolicy none).principalId = none ∧
      (generatePolicy none).context = none ∧
      ∀ u s : String,
        (generatePolicy (some ⟨u, s⟩)).principalId = some u ∧
          (generatePolicy (some ⟨u, s⟩)).context = some (u, s) := by
  have hex : ∃ r : Option AuthResult, authorize env = generatePolicy r := by
    unfold authorize
    dsimp only
    repeat' split
    all_goals exact ⟨_, rfl⟩
  refine ⟨hex, ?_, rfl, rfl, fun u s => ⟨rfl, rfl⟩⟩
  obtain ⟨r, hr⟩ := hex
  rw [hr]
  rfl

end Authorizer
